import Mathlib

/-
Verification of the derived-metrics computations of the athlete dashboard
(Dashboard.py, MetricPage.py).  Numeric values are embedded as rationals;
the single partial operation of the source, division, is embedded as an
Option-valued function whose `none` result models the degenerate
zero-denominator case (NaN/inf for pandas column arithmetic, a raised
ZeroDivisionError for plain Python numbers).  All other arithmetic on the
inputs the claims quantify over is exact.
-/

/-- Division as used by the source.  `none` models the degenerate
zero-denominator outcome of the Python division. -/
def pyDiv (a b : ℚ) : Option ℚ :=
  if b = 0 then none else some (a / b)

/-- Dashboard.py lines 38-39, `calculate_asymmetry`:
`((right - left) / ((left + right) / 2)) * 100`. -/
def calculate_asymmetry (left right : ℚ) : Option ℚ :=
  (pyDiv (right - left) ((left + right) / 2)).map (fun x => x * 100)

/-- Dashboard.py lines 30-33, the derived knee-strength columns:
`(force * lever) / body_mass`. -/
def normalizeTorque (force lever mass : ℚ) : Option ℚ :=
  pyDiv (force * lever) mass

/-- Dashboard.py lines 34-35, the derived calf-strength columns:
`(force / 9.81) / body_mass * 100` (9.81 = 981/100). -/
def normalizeCalfStrength (force mass : ℚ) : Option ℚ :=
  (pyDiv (force / (981 / 100)) mass).map (fun x => x * 100)

/-- Dashboard.py lines 480-483, the donut percentages:
`(value / target) * 100` (instantiated there with targets 17.0 and 0.52),
with no clamp. -/
def percent_of_target (value target : ℚ) : Option ℚ :=
  (pyDiv value target).map (fun x => x * 100)

/-- MetricPage.py lines 70-71 (and 223-224, 367-368), the per-chart
percentages: `min(100, (raw / target) * 100)` -- the clamp to 100 happens
inside the computation itself. -/
def metricpage_percent (raw target : ℚ) : Option ℚ :=
  (pyDiv raw target).map (fun x => min 100 (x * 100))

/-- MetricPage.py line 74 (and 227, 371), the per-chart asymmetry:
`abs(left_raw - right_raw) / max(left_raw, right_raw) * 100`. -/
def chart_asymmetry (left right : ℚ) : Option ℚ :=
  (pyDiv |left - right| (max left right)).map (fun x => x * 100)

/-- MetricPage.py lines 75-79 (and 228-232, 372-376), the conditional
expression colouring the asymmetry figure. -/
def asymmetry_color (a : ℚ) : String :=
  if a < 10 then "#4CAF50"
  else if a < 20 then "#FFC107"
  else "#F44336"

/-- C1: For every pair of rational inputs with `left + right ≠ 0`, the
asymmetry index computed by `calculate_asymmetry` is defined and equals
exactly `(right - left) / ((left + right) / 2) * 100`. -/
theorem calculate_asymmetry_formula (left right : ℚ) (h : left + right ≠ 0) :
    calculate_asymmetry left right =
      some ((right - left) / ((left + right) / 2) * 100) := by
  have h2 : (left + right) / 2 ≠ 0 := by
    intro hc
    exact h (by linarith [(div_eq_zero_iff.mp hc).resolve_right (by norm_num)])
  simp [calculate_asymmetry, pyDiv, h2]

/-- Witness for C1 at the concrete pair (10, 20). -/
theorem calculate_asymmetry_formula_witness :
    calculate_asymmetry 10 20 = some ((20 - 10) / ((10 + 20) / 2) * 100) :=
  calculate_asymmetry_formula 10 20 (by norm_num)

/-- C2: evaluation of the source's asymmetry computation at the failing
inputs.  At `left = 0, right = 0` (and at any pair summing to zero, e.g.
`(-5, 5)`) the code divides by zero: the result is the degenerate `none`
(NaN resp. ±inf in the floating-point source), silently -- no typed
`DivisionByZero` failure is signalled anywhere in `calculate_asymmetry`. -/
theorem calculate_asymmetry_zero_sum_silent :
    calculate_asymmetry 0 0 = none ∧ calculate_asymmetry (-5) 5 = none := by
  constructor <;> norm_num [calculate_asymmetry, pyDiv]

/-- C4 counterexample: the claim's concrete example is false.  The code's
formula divides by the mean of the pair, so `calculate_asymmetry 10 20`
is `200/3 ≈ 66.67`, not the claimed `100/3 ≈ 33.33`. -/
theorem asymmetry_swap_cex :
    calculate_asymmetry 10 20 = some (200 / 3) ∧
      calculate_asymmetry 10 20 ≠ some (100 / 3) := by
  constructor <;> norm_num [calculate_asymmetry, pyDiv]

/-- C4 (amended): swapping the two arguments negates the result exactly
whenever `left + right ≠ 0`; the concrete values at (10, 20) and (20, 10)
are `200/3` and `-200/3`. -/
theorem asymmetry_antisymm :
    (∀ left right : ℚ, left + right ≠ 0 →
      calculate_asymmetry right left =
        (calculate_asymmetry left right).map (fun x => -x)) ∧
    calculate_asymmetry 10 20 = some (200 / 3) ∧
    calculate_asymmetry 20 10 = some (-(200 / 3)) := by
  refine ⟨?_, by norm_num [calculate_asymmetry, pyDiv],
    by norm_num [calculate_asymmetry, pyDiv]⟩
  intro left right h
  have h2 : (left + right) / 2 ≠ 0 := by
    intro hc
    exact h (by linarith [(div_eq_zero_iff.mp hc).resolve_right (by norm_num)])
  have h2' : (right + left) / 2 ≠ 0 := by rw [add_comm]; exact h2
  simp [calculate_asymmetry, pyDiv, h2, h2']
  rw [add_comm right left]
  ring

/-- Witness for C4 at the concrete pair (10, 20). -/
theorem asymmetry_antisymm_witness :
    calculate_asymmetry 20 10 =
      (calculate_asymmetry 10 20).map (fun x => -x) :=
  asymmetry_antisymm.1 10 20 (by norm_num)

/-- C5: the normalized-torque computation is linear in force and in lever
arm (for positive body mass), and the concrete session of the spec gives
`(231 * 0.3) / 70 = 0.99`. -/
theorem normalizeTorque_linear :
    (∀ force lever mass : ℚ, 0 < mass →
      normalizeTorque (2 * force) lever mass =
        (normalizeTorque force lever mass).map (fun x => 2 * x) ∧
      normalizeTorque force (2 * lever) mass =
        (normalizeTorque force lever mass).map (fun x => 2 * x)) ∧
    normalizeTorque 231 (3 / 10) 70 = some (99 / 100) := by
  constructor
  · intro f l m hm
    have hm' : m ≠ 0 := ne_of_gt hm
    constructor <;> · simp [normalizeTorque, pyDiv, hm']; ring
  · norm_num [normalizeTorque, pyDiv]

/-- Witness for C5: doubling the force at the spec's concrete session
doubles the normalized torque. -/
theorem normalizeTorque_linear_witness :
    normalizeTorque (2 * 231) (3 / 10) 70 =
      (normalizeTorque 231 (3 / 10) 70).map (fun x => 2 * x) :=
  (normalizeTorque_linear.1 231 (3 / 10) 70 (by norm_num)).1

/-- C6 counterexample: the claim's concrete example misrounds.  The code
gives `normalizeCalfStrength 500 70 = 500000/6867 = 72.8119...`, which
does not agree with the claimed `72.84` at the two decimal places the
claim states (it is more than 0.005 away). -/
theorem normalizeCalfStrength_cex :
    normalizeCalfStrength 500 70 = some (500000 / 6867) ∧
      ¬ |(500000 / 6867 : ℚ) - 7284 / 100| < 5 / 1000 := by
  constructor
  · norm_num [normalizeCalfStrength, pyDiv]
  · rw [abs_sub_lt_iff]
    norm_num

/-- C6 (amended): for every force and positive body mass the calf-strength
normalization returns `(force / 9.81) / mass * 100`; at force 500 and mass
70 the value is `500000/6867 ≈ 72.81` (not 72.84). -/
theorem normalizeCalfStrength_amended :
    (∀ force mass : ℚ, 0 < mass →
      normalizeCalfStrength force mass =
        some (force / (981 / 100) / mass * 100)) ∧
    normalizeCalfStrength 500 70 = some (500000 / 6867) ∧
    |(500000 / 6867 : ℚ) - 7281 / 100| < 5 / 1000 := by
  refine ⟨?_, by norm_num [normalizeCalfStrength, pyDiv], ?_⟩
  · intro f m hm
    simp [normalizeCalfStrength, pyDiv, ne_of_gt hm]
  · rw [abs_sub_lt_iff]
    constructor <;> norm_num

/-- Witness for C6 at force 500, mass 70. -/
theorem normalizeCalfStrength_amended_witness :
    normalizeCalfStrength 500 70 = some (500 / (981 / 100) / 70 * 100) :=
  normalizeCalfStrength_amended.1 500 70 (by norm_num)

/-- C3 counterexample: the per-chart percentage of MetricPage.py (one of
the claim's cited computations) does not return the unclamped quotient:
at value 6.6 and target 3.3 the unclamped quotient is 200, but the
computation returns 100 -- the clamp happens inside the computation. -/
theorem percent_of_target_clamp_cex :
    metricpage_percent (33 / 5) (33 / 10) = some 100 ∧
      metricpage_percent (33 / 5) (33 / 10) ≠
        some ((33 / 5) / (33 / 10) * 100) := by
  constructor <;> norm_num [metricpage_percent, pyDiv]

/-- C3 (amended): the Dashboard.py percent-of-target computation is the
unclamped quotient `value / target * 100` (values above the target yield
results above 100, `percent_of_target 3.3 3.3 = 100`,
`percent_of_target 0 t = 0`); the MetricPage.py per-chart percentage is
instead computed already clamped, `min 100 (value / target * 100)`, and
agrees with the unclamped computation exactly when `value ≤ target`. -/
theorem percent_of_target_amended :
    (∀ v t : ℚ, 0 < t → percent_of_target v t = some (v / t * 100)) ∧
    (∀ v t : ℚ, 0 < t → t < v →
      ∃ p, percent_of_target v t = some p ∧ 100 < p) ∧
    percent_of_target (33 / 10) (33 / 10) = some 100 ∧
    (∀ t : ℚ, 0 < t → percent_of_target 0 t = some 0) ∧
    (∀ v t : ℚ, 0 < t →
      metricpage_percent v t = some (min 100 (v / t * 100))) ∧
    (∀ v t : ℚ, 0 < t → v ≤ t →
      metricpage_percent v t = percent_of_target v t) := by
  refine ⟨?_, ?_, by norm_num [percent_of_target, pyDiv], ?_, ?_, ?_⟩
  · intro v t ht
    simp [percent_of_target, pyDiv, ne_of_gt ht]
  · intro v t ht hv
    refine ⟨v / t * 100, ?_, ?_⟩
    · simp [percent_of_target, pyDiv, ne_of_gt ht]
    · have h1 : 1 < v / t := (one_lt_div ht).mpr hv
      nlinarith
  · intro t ht
    simp [percent_of_target, pyDiv, ne_of_gt ht]
  · intro v t ht
    simp [metricpage_percent, pyDiv, ne_of_gt ht]
  · intro v t ht hv
    have h1 : v / t ≤ 1 := (div_le_one ht).mpr hv
    have h2 : v / t * 100 ≤ 100 := by nlinarith
    simp [metricpage_percent, percent_of_target, pyDiv, ne_of_gt ht,
      min_eq_right h2]

/-- Witness for C3: at value 1 and target 2 the clamped and unclamped
computations agree. -/
theorem percent_of_target_amended_witness :
    metricpage_percent 1 2 = percent_of_target 1 2 :=
  percent_of_target_amended.2.2.2.2.2 1 2 (by norm_num) (by norm_num)

/-- C8 counterexample: the per-chart asymmetry is not nonnegative for
every pair with `max left right ≠ 0`: at left = -1, right = -2 the
maximum is -1 ≠ 0 and the computed value is -100 < 0. -/
theorem chart_asymmetry_cex :
    chart_asymmetry (-1) (-2) = some (-100) ∧
      max (-1 : ℚ) (-2) ≠ 0 ∧ ¬ (0 : ℚ) ≤ -100 := by
  refine ⟨?_, by norm_num, by norm_num⟩
  norm_num [chart_asymmetry, pyDiv]

/-- C8 (amended): the per-chart asymmetry `|l - r| / max l r * 100` is
symmetric under swapping its arguments, nonnegative whenever
`0 < max l r` (not merely `max l r ≠ 0`), and differs from the signed
asymmetry index in general: at left 10, right 20 it is 50 while the
signed index is `200/3`. -/
theorem chart_asymmetry_amended :
    (∀ l r : ℚ, chart_asymmetry l r = chart_asymmetry r l) ∧
    (∀ l r : ℚ, 0 < max l r →
      ∃ a, chart_asymmetry l r = some a ∧ 0 ≤ a) ∧
    chart_asymmetry 10 20 = some 50 ∧
    calculate_asymmetry 10 20 = some (200 / 3) ∧
    (50 : ℚ) ≠ 200 / 3 := by
  refine ⟨?_, ?_, ?_, by norm_num [calculate_asymmetry, pyDiv], by norm_num⟩
  · intro l r
    rw [chart_asymmetry, chart_asymmetry, abs_sub_comm, max_comm]
  · intro l r hmax
    refine ⟨|l - r| / max l r * 100, ?_, ?_⟩
    · simp [chart_asymmetry, pyDiv, ne_of_gt hmax]
    · exact mul_nonneg (div_nonneg (abs_nonneg _) (le_of_lt hmax))
        (by norm_num)
  · norm_num [chart_asymmetry, pyDiv]

/-- Witness for C8: the nonnegativity conjunct at the concrete pair
(1, 2). -/
theorem chart_asymmetry_amended_witness :
    ∃ a, chart_asymmetry 1 2 = some a ∧ 0 ≤ a :=
  chart_asymmetry_amended.2.1 1 2 (by norm_num)

/-- C9: the colour-coded asymmetry indicator is total and piecewise
exact: green iff the asymmetry is below 10, amber iff it is in [10, 20),
red iff it is at least 20, and every value gets one of the three
colours. -/
theorem asymmetry_color_total (a : ℚ) :
    (asymmetry_color a = "#4CAF50" ↔ a < 10) ∧
    (asymmetry_color a = "#FFC107" ↔ 10 ≤ a ∧ a < 20) ∧
    (asymmetry_color a = "#F44336" ↔ 20 ≤ a) ∧
    (asymmetry_color a = "#4CAF50" ∨ asymmetry_color a = "#FFC107" ∨
      asymmetry_color a = "#F44336") := by
  unfold asymmetry_color
  split_ifs with h1 h2
  · exact ⟨iff_of_true rfl h1,
      iff_of_false (by decide) (fun hc => absurd h1 (not_lt.mpr hc.1)),
      iff_of_false (by decide)
        (fun hc => absurd h1 (not_lt.mpr (le_trans (by norm_num) hc))),
      Or.inl rfl⟩
  · exact ⟨iff_of_false (by decide) h1,
      iff_of_true rfl ⟨not_lt.mp h1, h2⟩,
      iff_of_false (by decide) (fun hc => absurd h2 (not_lt.mpr hc)),
      Or.inr (Or.inl rfl)⟩
  · exact ⟨iff_of_false (by decide) h1,
      iff_of_false (by decide) (fun hc => h2 hc.2),
      iff_of_true rfl (not_lt.mp h2),
      Or.inr (Or.inr rfl)⟩

/-- A calendar date, as carried by the pandas day-resolution timestamps of
the `date`, `date_of_birth` and `injury_date` columns. -/
structure Date where
  year : Nat
  month : Nat
  day : Nat

/-- Gregorian leap-year rule. -/
def isLeap (y : Nat) : Bool :=
  (y % 4 == 0 && y % 100 != 0) || y % 400 == 0

/-- Length of month `m` of year `y`. -/
def daysInMonth (y m : Nat) : Nat :=
  if m = 2 then (if isLeap y then 29 else 28)
  else if m = 4 ∨ m = 6 ∨ m = 9 ∨ m = 11 then 30
  else 31

/-- Days of year `y` lying strictly before month `m`. -/
def daysBeforeMonth : Nat → Nat → Nat
  | _, 0 => 0
  | _, 1 => 0
  | y, m + 2 => daysBeforeMonth y (m + 1) + daysInMonth y (m + 1)

/-- Proleptic-Gregorian day ordinal of a date (0001-01-01 is day 1), the
day count underlying the timestamp subtraction of the source. -/
def toOrdinal (d : Date) : Nat :=
  let y := d.year - 1
  365 * y + y / 4 - y / 100 + y / 400 + daysBeforeMonth d.year d.month + d.day

/-- Dashboard.py lines 473-477: the whole-day difference of two dates
divided by 7, with Python true division. -/
def weeksSince (d r : Date) : ℚ :=
  ((toOrdinal d : ℚ) - (toOrdinal r : ℚ)) / 7

/-- C7: `weeksSince` is the whole-day difference divided by 7; a date 14
days after the reference gives exactly 2; a date before the reference
gives a negative number (not a rejection). -/
theorem weeksSince_correct :
    (∀ d r : Date,
      7 * weeksSince d r = (toOrdinal d : ℚ) - (toOrdinal r : ℚ)) ∧
    (∀ d r : Date, toOrdinal d = toOrdinal r + 14 → weeksSince d r = 2) ∧
    (∀ d r : Date, toOrdinal d < toOrdinal r → weeksSince d r < 0) := by
  refine ⟨?_, ?_, ?_⟩
  · intro d r
    rw [weeksSince]
    ring
  · intro d r h
    rw [weeksSince, h]
    push_cast
    ring_nf
  · intro d r h
    rw [weeksSince]
    apply div_neg_of_neg_of_pos _ (by norm_num)
    have hc : (toOrdinal d : ℚ) < (toOrdinal r : ℚ) := by
      exact_mod_cast h
    linarith

/-- Witness for C7: 2024-03-07 is 14 days after 2024-02-22 (across the
leap-year February boundary), and `weeksSince` gives exactly 2. -/
theorem weeksSince_correct_witness :
    weeksSince (Date.mk 2024 3 7) (Date.mk 2024 2 22) = 2 :=
  weeksSince_correct.2.1 (Date.mk 2024 3 7) (Date.mk 2024 2 22) (by decide)

/-- MetricPage.py lines 1064-1069: the scan over the exercise's sorted
date keys keeping the most recent date not after the selected one and
stopping at the first later date (`latest_valid_date` in the source). -/
def latest_valid_date : List Nat → Nat → Option Nat
  | [], _ => none
  | d :: rest, sel =>
    if d ≤ sel then some ((latest_valid_date rest sel).getD d) else none

/-- MetricPage.py lines 1055-1074, `get_latest_data` on one exercise's
historical table.  The dict is modelled as its (date, left, right)
entries listed in increasing date order -- the sorted key iteration order
of the source -- with dates encoded as yyyymmdd numbers, whose numeric
order agrees with the source's lexicographic order on ISO date strings. -/
def get_latest_data (table : List (Nat × ℚ × ℚ)) (sel : Nat) :
    Option (ℚ × ℚ) :=
  match latest_valid_date (table.map Prod.fst) sel with
  | some d => table.lookup d
  | none => table.head?.map Prod.snd

theorem latest_valid_date_mem_le (sel : Nat) :
    ∀ (ks : List Nat) (d : Nat),
      latest_valid_date ks sel = some d → d ∈ ks ∧ d ≤ sel := by
  intro ks
  induction ks with
  | nil => intro d h; simp [latest_valid_date] at h
  | cons k rest ih =>
    intro d h
    rw [latest_valid_date] at h
    split_ifs at h with hk
    · cases hrest : latest_valid_date rest sel with
      | none =>
        rw [hrest] at h
        simp only [Option.getD_none, Option.some.injEq] at h
        subst h
        exact ⟨List.mem_cons_self _ _, hk⟩
      | some d2 =>
        rw [hrest] at h
        simp only [Option.getD_some, Option.some.injEq] at h
        subst h
        obtain ⟨hmem, hle⟩ := ih d2 hrest
        exact ⟨List.mem_cons_of_mem _ hmem, hle⟩

theorem latest_valid_date_none (sel : Nat) :
    ∀ (ks : List Nat), ks.Pairwise (· < ·) →
      latest_valid_date ks sel = none → ∀ k ∈ ks, sel < k := by
  intro ks hp h k hk
  cases ks with
  | nil => simp at hk
  | cons k0 rest =>
    rw [latest_valid_date] at h
    split_ifs at h with hk0
    rcases List.mem_cons.mp hk with rfl | hmem
    · exact Nat.lt_of_not_le hk0
    · exact lt_trans (Nat.lt_of_not_le hk0)
        ((List.pairwise_cons.mp hp).1 k hmem)

theorem latest_valid_date_greatest (sel : Nat) :
    ∀ (ks : List Nat), ks.Pairwise (· < ·) → ∀ (d : Nat),
      latest_valid_date ks sel = some d →
      ∀ k ∈ ks, k ≤ sel → k ≤ d := by
  intro ks
  induction ks with
  | nil => intro _ d h; simp [latest_valid_date] at h
  | cons k0 rest ih =>
    intro hp d h k hk hks
    rw [latest_valid_date] at h
    split_ifs at h with hk0
    · rcases List.mem_cons.mp hk with rfl | hmem
      · cases hrest : latest_valid_date rest sel with
        | none =>
          rw [hrest] at h
          simp only [Option.getD_none, Option.some.injEq] at h
          subst h
          exact le_refl _
        | some d2 =>
          rw [hrest] at h
          simp only [Option.getD_some, Option.some.injEq] at h
          subst h
          exact le_of_lt ((List.pairwise_cons.mp hp).1 d2
            (latest_valid_date_mem_le sel rest d2 hrest).1)
      · cases hrest : latest_valid_date rest sel with
        | none =>
          have hlt := latest_valid_date_none sel rest
            (List.pairwise_cons.mp hp).2 hrest k hmem
          exact absurd hks (not_le.mpr hlt)
        | some d2 =>
          rw [hrest] at h
          simp only [Option.getD_some, Option.some.injEq] at h
          subst h
          exact ih (List.pairwise_cons.mp hp).2 d2 hrest k hmem hks

theorem latest_valid_date_isSome (sel : Nat) :
    ∀ (ks : List Nat), ks.Pairwise (· < ·) →
      (∃ k ∈ ks, k ≤ sel) → (latest_valid_date ks sel).isSome = true := by
  intro ks hp hex
  cases ks with
  | nil => obtain ⟨k, hk, _⟩ := hex; simp at hk
  | cons k0 rest =>
    obtain ⟨k, hk, hks⟩ := hex
    have h0 : k0 ≤ k := by
      rcases List.mem_cons.mp hk with rfl | hmem
      · exact le_refl _
      · exact le_of_lt ((List.pairwise_cons.mp hp).1 k hmem)
    rw [latest_valid_date, if_pos (le_trans h0 hks)]
    rfl

theorem lookup_of_mem_keys :
    ∀ (table : List (Nat × ℚ × ℚ)) (d : Nat), d ∈ table.map Prod.fst →
      ∃ v, table.lookup d = some v ∧ (d, v) ∈ table := by
  intro table
  induction table with
  | nil => intro d hd; simp at hd
  | cons p rest ih =>
    intro d hd
    obtain ⟨k, v⟩ := p
    by_cases hdk : d = k
    · subst hdk
      exact ⟨v, by simp [List.lookup], List.mem_cons_self _ _⟩
    · have hd' : d ∈ rest.map Prod.fst := by
        rcases List.mem_map.mp hd with ⟨q, hq, hq1⟩
        rcases List.mem_cons.mp hq with rfl | hqm
        · exact absurd hq1.symm hdk
        · exact List.mem_map.mpr ⟨q, hqm, hq1⟩
      obtain ⟨w, hw, hwmem⟩ := ih d hd'
      have hbeq : (d == k) = false := beq_eq_false_iff_ne.mpr hdk
      refine ⟨w, ?_, List.mem_cons_of_mem _ hwmem⟩
      simp [List.lookup, hbeq, hw]

/-- C10: on a nonempty exercise table with strictly increasing dates,
`get_latest_data` returns the record at the greatest recorded date not
after the selected date; when every recorded date is after the selected
date it returns the record at the earliest recorded date; and it always
returns a record. -/
theorem get_latest_data_correct (table : List (Nat × ℚ × ℚ)) (sel : Nat)
    (hs : table.Pairwise (fun p q => p.1 < q.1)) (hne : table ≠ []) :
    (∀ p ∈ table, p.1 ≤ sel →
      ∃ q ∈ table, q.1 ≤ sel ∧ (∀ r ∈ table, r.1 ≤ sel → r.1 ≤ q.1) ∧
        get_latest_data table sel = some q.2) ∧
    ((∀ p ∈ table, sel < p.1) →
      get_latest_data table sel = table.head?.map Prod.snd) ∧
    (get_latest_data table sel).isSome = true := by
  have hkeys : (table.map Prod.fst).Pairwise (· < ·) :=
    List.pairwise_map.mpr hs
  refine ⟨?_, ?_, ?_⟩
  · intro p hp hple
    have hsome := latest_valid_date_isSome sel (table.map Prod.fst) hkeys
      ⟨p.1, List.mem_map_of_mem _ hp, hple⟩
    obtain ⟨d, hd⟩ := Option.isSome_iff_exists.mp hsome
    obtain ⟨hdmem, hdle⟩ := latest_valid_date_mem_le sel _ d hd
    obtain ⟨v, hlook, hvmem⟩ := lookup_of_mem_keys table d hdmem
    refine ⟨(d, v), hvmem, hdle, ?_, ?_⟩
    · intro r hr hrle
      exact latest_valid_date_greatest sel _ hkeys d hd r.1
        (List.mem_map_of_mem _ hr) hrle
    · rw [get_latest_data, hd]
      exact hlook
  · intro hall
    have hnone : latest_valid_date (table.map Prod.fst) sel = none := by
      cases hlvd : latest_valid_date (table.map Prod.fst) sel with
      | none => rfl
      | some d =>
        obtain ⟨hdmem, hdle⟩ := latest_valid_date_mem_le sel _ d hlvd
        obtain ⟨q, hq, hq1⟩ := List.mem_map.mp hdmem
        exact absurd hdle (not_le.mpr (hq1 ▸ hall q hq))
    rw [get_latest_data, hnone]
  · cases hlvd : latest_valid_date (table.map Prod.fst) sel with
    | none =>
      rw [get_latest_data, hlvd]
      cases table with
      | nil => exact absurd rfl hne
      | cons p rest => rfl
    | some d =>
      obtain ⟨hdmem, _⟩ := latest_valid_date_mem_le sel _ d hlvd
      obtain ⟨v, hlook, _⟩ := lookup_of_mem_keys table d hdmem
      rw [get_latest_data, hlvd]
      simp [hlook]

/-- The 'Single Leg Squat' table of MetricPage.py lines 1005-1018, dates
encoded yyyymmdd. -/
def singleLegSquat : List (Nat × ℚ × ℚ) :=
  [(20230101, 8, 6), (20230201, 10, 8), (20230301, 12, 10),
   (20230401, 14, 12), (20230501, 16, 14), (20230601, 18, 16),
   (20230701, 20, 18), (20230801, 22, 20), (20230901, 24, 22),
   (20231001, 24, 22), (20231101, 24, 22), (20231201, 24, 22)]

/-- Witness for C10: on the concrete 'Single Leg Squat' table, selecting
2023-07-15 yields a record, namely the 2023-07-01 one. -/
theorem get_latest_data_correct_witness :
    (get_latest_data singleLegSquat 20230715).isSome = true ∧
      get_latest_data singleLegSquat 20230715 = some (20, 18) := by
  constructor
  · exact (get_latest_data_correct singleLegSquat 20230715
      (by decide) (by decide)).2.2
  · rfl
